import Mathlib

/-!
Shallow embedding of the sink delivery subsystem of the dxlog repository:
the rotating file sink (runtime/sink/policy/rotation.go) and the batching /
backpressure sink wrapper (batch sink in the same package).

Go machine integers (int, int64) are modelled as Lean Int: none of the
verified properties reach the magnitudes (2^63 bytes, 2^63 nanoseconds)
where Go's int64 arithmetic would wrap.  Durations and times are carried
in nanoseconds, as in Go's time package.  Fallible system calls are
modelled by an environment record (Env) that fixes the outcome of each
call made during one sink operation; the operations return an optional
error together with the new in-memory state, the new on-disk state, and
a ghost trace of the system calls performed.
-/

namespace DxLog

/-- Error values produced by the sink layer.  The sentinel errors of the Go
code (ErrRotationClosed, ErrBatchClosed, ErrQueueFull) are constructors;
context-cancellation errors and transient I/O errors carry a numeric code
so that distinct failures stay distinct. -/
inductive GoErr where
  | rotationClosed
  | rotationNoPath
  | batchClosed
  | queueFull
  | ctxErr (code : Nat)
  | ioErr (code : Nat)
  deriving DecidableEq, Repr

/-- Ghost record of a system call performed by the rotating file sink. -/
inductive SysOp where
  | mkdirAll
  | openFile
  | statFile
  | renameFile
  | gzipFile
  | pruneDir
  | fileWrite
  | fileSync
  | fileClose
  deriving DecidableEq, Repr

/-- An encoded log entry: an opaque byte sequence (apis/sink contract). -/
abbrev Entry := List Nat

/-- Rotation policy (apis/sink/policy.Rotation): MaxSizeMB, MaxAgeDays,
MaxBackups are Go ints, Compress a flag.  Zero disables a dimension. -/
structure Rotation where
  MaxSizeMB : Int
  MaxAgeDays : Int
  MaxBackups : Int
  Compress : Bool
  deriving DecidableEq, Repr

/-- Mirrors normalizeRotationPolicy: negative values are clamped to zero
(disabled); zero means "no rotation by this dimension". -/
def normalizeRotationPolicy (p : Rotation) : Rotation :=
  let p := if p.MaxSizeMB < 0 then { p with MaxSizeMB := 0 } else p
  let p := if p.MaxAgeDays < 0 then { p with MaxAgeDays := 0 } else p
  if p.MaxBackups < 0 then { p with MaxBackups := 0 } else p

/-- Runtime options of the rotating file sink (FileRotationOptions). -/
structure FileRotationOptions where
  Path : String
  Policy : Rotation
  Name : String
  FileMode : Nat
  deriving DecidableEq, Repr

/-- Mirrors the FileMode default applied by NewRotatingFileSink:
when the configured mode is zero, 0o640 is used. -/
def newRotatingFileSinkFileMode (m : Nat) : Nat :=
  if m = 0 then 0o640 else m

/-- In-memory state of a rotatingFileSink: presence of the file handle
(s.file != nil), tracked size in bytes, recorded creation time
(nanoseconds), and the closed flag. -/
structure RotState where
  path : String
  opt : FileRotationOptions
  file : Bool
  size : Int
  created : Int
  closed : Bool
  deriving DecidableEq, Repr

/-- A file on disk: its content bytes, its modification time in
nanoseconds, and whether it has been gzipped (content is kept abstract;
no verified property inspects compressed bytes). -/
structure DiskFile where
  content : List Nat
  mtime : Int
  gz : Bool
  deriving DecidableEq, Repr

/-- The slice of the file system a rotating file sink touches: the active
file at its path (none when absent) and the rotated backup files, as a
list of (name, file) pairs. -/
structure World where
  active : Option DiskFile
  backups : List (String × DiskFile)
  deriving DecidableEq, Repr

/-- Outcomes of the fallible system calls made during one sink operation.
ctxCancel models ctx.Err(): none when the context is live, some code for
the context's own cancellation error.  writeN is the byte count the file
write reports as actually written. -/
structure Env where
  ctxCancel : Option Nat
  now : Int
  mkdirErr : Option GoErr
  openErr : Option GoErr
  statErr : Option GoErr
  rotStatOk : Bool
  renameErr : Option GoErr
  gzipOk : Bool
  writeN : Nat
  writeErr : Option GoErr
  syncErr : Option GoErr
  closeErr : Option GoErr
  deriving DecidableEq, Repr

/-- Mirrors shouldRotate: rotate when the size limit is enabled and the
current size plus the incoming entry would strictly exceed
MaxSizeMB megabytes, or when the age limit is enabled and the file's age
is at least MaxAgeDays days. -/
def shouldRotate (s : RotState) (now : Int) (incomingBytes : Nat) : Bool :=
  let p := s.opt.Policy
  if p.MaxSizeMB > 0 ∧ s.size + (incomingBytes : Int) > p.MaxSizeMB * 1024 * 1024 then
    true
  else if p.MaxAgeDays > 0 ∧ now - s.created ≥ p.MaxAgeDays * 24 * 3600 * 1000000000 then
    true
  else
    false

/-- Result of an internal file-system step: optional error, new sink
state, new world, trace of system calls. -/
structure StepResult where
  err : Option GoErr
  s : RotState
  w : World
  trace : List SysOp
  deriving DecidableEq, Repr

/-- Mirrors openCurrent: MkdirAll on the directory, OpenFile with
O_CREATE, O_APPEND and O_WRONLY (creating an empty file when the path is
absent, keeping existing content otherwise — append mode never
truncates), then Stat to seed the in-memory size and creation time from
the file's size and mod time.  On stat failure the freshly opened handle
is closed and the sink fields are left untouched. -/
def openCurrent (env : Env) (s : RotState) (w : World) : StepResult :=
  match env.mkdirErr with
  | some e => ⟨some e, s, w, [SysOp.mkdirAll]⟩
  | none =>
    match env.openErr with
    | some e => ⟨some e, s, w, [SysOp.mkdirAll, SysOp.openFile]⟩
    | none =>
      let f : DiskFile :=
        match w.active with
        | some f => f
        | none => ⟨[], env.now, false⟩
      let w' : World := { w with active := some f }
      match env.statErr with
      | some e => ⟨some e, s, w', [SysOp.mkdirAll, SysOp.openFile, SysOp.statFile, SysOp.fileClose]⟩
      | none =>
        ⟨none,
         { s with file := true, size := (f.content.length : Int), created := f.mtime },
         w', [SysOp.mkdirAll, SysOp.openFile, SysOp.statFile]⟩

/-- Timestamp rendering for rotated file names.  Abstracts Go's
t.UTC().Format of the pattern 20060102-150405; the verified properties
depend only on the name being the base path, a dot, and a suffix. -/
def formatRotationStamp (t : Int) : String :=
  toString t

/-- Mirrors rotatedFilename: base path, a dot, and the UTC timestamp. -/
def rotatedFilename (basePath : String) (t : Int) : String :=
  basePath ++ "." ++ formatRotationStamp t

/-- A directory entry as seen by pruneBackups: a file name and its
modification time in nanoseconds. -/
structure DirEntry where
  name : String
  mtime : Int
  deriving DecidableEq, Repr

/-- Character-wise prefix test, the model of strings.HasPrefix. -/
def strHasPre (p s : List Char) : Bool :=
  match p, s with
  | [], _ => true
  | _ :: _, [] => false
  | a :: p', b :: s' => a = b && strHasPre p' s'

/-- The selection test of pruneBackups: the entry's name starts with the
base name of the active file followed by a dot (strings.HasPrefix). -/
def isBackupName (base : String) (e : DirEntry) : Bool :=
  strHasPre (base ++ ".").data e.name.data

/-- Comparison used to sort backups: ascending modification time. -/
def olderLE (a b : DirEntry) : Prop :=
  a.mtime ≤ b.mtime

instance : DecidableRel olderLE :=
  fun a b => inferInstanceAs (Decidable (a.mtime ≤ b.mtime))

instance : IsTotal DirEntry olderLE :=
  ⟨fun a b => Int.le_total a.mtime b.mtime⟩

instance : IsTrans DirEntry olderLE :=
  ⟨fun _ _ _ h1 h2 => le_trans h1 h2⟩

/-- Outcome of one run of pruneBackups over a directory listing. -/
structure PruneResult where
  remaining : List DirEntry
  deleted : List DirEntry
  deriving DecidableEq, Repr

/-- The collection loop of pruneBackups: the directory entries whose
names pass the backup-name test. -/
def collectBackups (base : String) (entries : List DirEntry) : List DirEntry :=
  entries.filter (fun e => isBackupName base e)

/-- The toDelete slice of pruneBackups: the backups sorted by ascending
modification time, truncated to all but the newest maxBackups.  The Go
code sorts with sort.Slice; with the distinct modification times the
verified claims assume, any correct sort yields the same list, and
insertion sort is used here. -/
def pruneToDelete (base : String) (maxBackups : Int) (entries : List DirEntry) :
    List DirEntry :=
  ((collectBackups base entries).insertionSort olderLE).take
    ((collectBackups base entries).length - maxBackups.toNat)

/-- Proof-side companion of pruneToDelete: the complementary slice of
the sorted backups — the newest maxBackups entries, which survive. -/
def pruneToKeep (base : String) (maxBackups : Int) (entries : List DirEntry) :
    List DirEntry :=
  ((collectBackups base entries).insertionSort olderLE).drop
    ((collectBackups base entries).length - maxBackups.toNat)

/-- Mirrors pruneBackups: when a positive backup limit is set, collect
every directory entry whose name starts with the active file's base name
plus a dot; when more than maxBackups of them exist, sort them by
modification time ascending and delete the ones before the last
maxBackups.  Returns the directory after the removals together with the
removed entries. -/
def pruneBackups (base : String) (maxBackups : Int) (entries : List DirEntry) : PruneResult :=
  if maxBackups ≤ 0 then ⟨entries, []⟩
  else if ((collectBackups base entries).length : Int) ≤ maxBackups then ⟨entries, []⟩
  else
    ⟨entries.filter (fun e => decide (e ∉ pruneToDelete base maxBackups entries)),
     pruneToDelete base maxBackups entries⟩

/-- View of the world's backup files as directory entries. -/
def backupsAsDir (w : World) : List DirEntry :=
  w.backups.map (fun b => ⟨b.1, b.2.mtime⟩)

/-- Removes from the world's backups those whose (name, mtime) view is in
the deleted list computed by pruneBackups. -/
def applyPrune (base : String) (maxBackups : Int) (w : World) : World :=
  let res := pruneBackups base maxBackups (backupsAsDir w)
  { w with backups := w.backups.filter (fun b => decide ((⟨b.1, b.2.mtime⟩ : DirEntry) ∈ res.remaining)) }

/-- Mirrors the best-effort compressFile step applied to the backup just
produced by a rotation: on success the backup is replaced by its gzipped
variant under the name with the .gz suffix; on failure the uncompressed
backup is kept (errors are swallowed). -/
def compressBackup (env : Env) (name : String) (w : World) : World :=
  if env.gzipOk then
    { w with backups := w.backups.map (fun b =>
        if b.1 = name then (name ++ ".gz", { b.2 with gz := true, mtime := env.now }) else b) }
  else
    w

/-- Mirrors rotateLocked, run under the sink's lock: close and drop the
current handle; when the active file exists on disk (os.Stat reports no
error), rename it to the timestamped backup name — a rename failure
aborts rotation with that error — then best-effort compress and
best-effort prune; finally reopen a fresh active file via openCurrent. -/
def rotateLocked (env : Env) (s : RotState) (w : World) : StepResult :=
  let closeOps : List SysOp := if s.file then [SysOp.fileClose] else []
  let s := { s with file := false }
  if w.active.isSome ∧ env.rotStatOk then
    match w.active with
    | none => openCurrent env s w
    | some f =>
      match env.renameErr with
      | some e => ⟨some e, s, w, closeOps ++ [SysOp.statFile, SysOp.renameFile]⟩
      | none =>
        let backupName := rotatedFilename s.path env.now
        let w := { w with active := none, backups := w.backups ++ [(backupName, f)] }
        let w := if s.opt.Policy.Compress then compressBackup env backupName w else w
        let gzOps : List SysOp := if s.opt.Policy.Compress then [SysOp.gzipFile] else []
        let w := if s.opt.Policy.MaxBackups > 0 then applyPrune s.path s.opt.Policy.MaxBackups w else w
        let prOps : List SysOp := if s.opt.Policy.MaxBackups > 0 then [SysOp.pruneDir] else []
        let res := openCurrent env s w
        ⟨res.err, res.s, res.w,
         closeOps ++ [SysOp.statFile, SysOp.renameFile] ++ gzOps ++ prOps ++ res.trace⟩
  else
    let res := openCurrent env s w
    ⟨res.err, res.s, res.w, closeOps ++ [SysOp.statFile] ++ res.trace⟩

/-- Result of one rotatingFileSink.Write call: the returned error, the
new state and world, a trace, and ghost observations — whether
rotateLocked ran, whether the file append was reached, and the tracked
size just before the append. -/
structure RotWriteResult where
  err : Option GoErr
  s : RotState
  w : World
  rotated : Bool
  wrote : Bool
  preSize : Int
  trace : List SysOp
  deriving DecidableEq, Repr

/-- The file-append step of Write: file.Write(entry) reports writeN bytes
written (appended to the active file) and possibly an error; the tracked
size grows by the reported count before the error is examined. -/
def appendEntry (env : Env) (s : RotState) (w : World) (entry : Entry)
    (rotated : Bool) (pre : List SysOp) : RotWriteResult :=
  let f : DiskFile :=
    match w.active with
    | some f => f
    | none => ⟨[], env.now, false⟩
  let w' : World := { w with active := some { f with content := f.content ++ entry.take env.writeN, mtime := env.now } }
  let s' : RotState := { s with size := s.size + (env.writeN : Int) }
  ⟨env.writeErr, s', w', rotated, true, s.size, pre ++ [SysOp.fileWrite]⟩

/-- Mirrors rotatingFileSink.Write: return ctx.Err() when the context is
already cancelled; fail with ErrRotationClosed when closed; lazily
reopen a missing handle; rotate when shouldRotate says so, aborting on
rotation failure without writing; otherwise append the entry and add the
reported byte count to the tracked size even when the write errors. -/
def rotatingWrite (env : Env) (s : RotState) (w : World) (entry : Entry) : RotWriteResult :=
  match env.ctxCancel with
  | some c => ⟨some (GoErr.ctxErr c), s, w, false, false, 0, []⟩
  | none =>
    if s.closed then ⟨some GoErr.rotationClosed, s, w, false, false, 0, []⟩
    else
      let opened : StepResult := if s.file then ⟨none, s, w, []⟩ else openCurrent env s w
      match opened.err with
      | some e => ⟨some e, opened.s, opened.w, false, false, 0, opened.trace⟩
      | none =>
        let s := opened.s
        let w := opened.w
        if shouldRotate s env.now entry.length then
          let rot := rotateLocked env s w
          match rot.err with
          | some e => ⟨some e, rot.s, rot.w, true, false, 0, opened.trace ++ rot.trace⟩
          | none => appendEntry env rot.s rot.w entry true (opened.trace ++ rot.trace)
        else
          appendEntry env s w entry false opened.trace

/-- Mirrors rotatingFileSink.Flush: ctx.Err() first, then the closed
check, then a no-op when no file is open, otherwise file.Sync. -/
def rotatingFlush (env : Env) (s : RotState) (w : World) : StepResult :=
  match env.ctxCancel with
  | some c => ⟨some (GoErr.ctxErr c), s, w, []⟩
  | none =>
    if s.closed then ⟨some GoErr.rotationClosed, s, w, []⟩
    else if s.file then ⟨env.syncErr, s, w, [SysOp.fileSync]⟩
    else ⟨none, s, w, []⟩

/-- Mirrors rotatingFileSink.Close: idempotent; marks the sink closed and
closes the file handle when one is open, propagating its error. -/
def rotatingClose (env : Env) (s : RotState) (w : World) : StepResult :=
  if s.closed then ⟨none, s, w, []⟩
  else
    let s' := { s with closed := true, file := false }
    if s.file then ⟨env.closeErr, s', w, [SysOp.fileClose]⟩
    else ⟨none, s', w, []⟩

/-- Backpressure modes (apis/sink/policy.Backpressure, a Go uint8). -/
def BackpressureBlock : Nat := 0

/-- Drop mode: a full queue rejects the entry with ErrQueueFull. -/
def BackpressureDrop : Nat := 1

/-- Shed mode: behaves as Drop in the current implementation. -/
def BackpressureShed : Nat := 2

/-- Runtime options of the batch sink (BatchOptions): queue capacity,
batch policy (MaxEntries, Interval in nanoseconds), backpressure mode. -/
structure BatchOptions where
  QueueSize : Int
  MaxEntries : Int
  Interval : Int
  Backpressure : Nat
  Name : String
  deriving DecidableEq, Repr

/-- Mirrors the normalization in WithBatch: a non-positive queue size
becomes 1024, and a mode other than Block, Drop or Shed becomes Block. -/
def withBatchOptions (opt : BatchOptions) : BatchOptions :=
  let opt := if opt.QueueSize ≤ 0 then { opt with QueueSize := 1024 } else opt
  if opt.Backpressure ≠ BackpressureBlock ∧ opt.Backpressure ≠ BackpressureDrop ∧
      opt.Backpressure ≠ BackpressureShed then
    { opt with Backpressure := BackpressureBlock }
  else opt

/-- Producer-side state of a batch sink: the FIFO channel buffer, its
capacity, and the closed flag. -/
structure BatchState where
  queue : List Entry
  cap : Nat
  closed : Bool
  deriving DecidableEq, Repr

/-- What ends a blocking send on a full queue: either the worker consumes
k+1 entries and the send completes, or the caller's context is cancelled
first with the given code. -/
inductive BlockEvent where
  | space (k : Nat)
  | cancel (code : Nat)
  deriving DecidableEq, Repr

/-- Result of one batchSink.Write call: the returned error, the new
queue state, and a ghost flag telling whether the call entered the
blocking select (every non-blocking path leaves it false). -/
structure BatchWriteResult where
  err : Option GoErr
  st : BatchState
  blocked : Bool
  deriving DecidableEq, Repr

/-- Mirrors batchSink.Write: fail fast with ErrBatchClosed when closed;
try a non-blocking enqueue (a channel send succeeds exactly when the
buffer is below capacity); on a full queue, Drop and Shed return
ErrQueueFull without enqueuing, while Block — and any unknown mode, via
the defensive default branch — waits in a select until space frees or
the context is cancelled. -/
def batchWrite (mode : Nat) (ev : BlockEvent) (st : BatchState) (entry : Entry) :
    BatchWriteResult :=
  if st.closed then ⟨some GoErr.batchClosed, st, false⟩
  else if st.queue.length < st.cap then
    ⟨none, { st with queue := st.queue ++ [entry] }, false⟩
  else if mode = BackpressureDrop ∨ mode = BackpressureShed then
    ⟨some GoErr.queueFull, st, false⟩
  else
    match ev with
    | BlockEvent.space k => ⟨none, { st with queue := (st.queue.drop (k + 1)) ++ [entry] }, true⟩
    | BlockEvent.cancel c => ⟨some (GoErr.ctxErr c), st, true⟩

/-- Mirrors batchSink.Flush: ErrBatchClosed when closed (without touching
the inner sink), otherwise delegate to the inner sink's Flush.  The
returned flag records whether the inner Flush was called. -/
def batchFlush (st : BatchState) (innerErr : Option GoErr) : Option GoErr × Bool :=
  if st.closed then (some GoErr.batchClosed, false)
  else (innerErr, true)

/-- Mirrors the closing transition of batchSink.Close: the atomic swap
sets the closed flag; a second call observes it and is a no-op. -/
def batchMarkClosed (st : BatchState) : BatchState × Bool :=
  if st.closed then (st, true) else ({ st with closed := true }, false)

/-- State of the delivery worker of a batch sink, with ghost history:
queue is the channel content, batch the worker's pending in-memory
batch, delivered the entries passed to the inner sink's Write in call
order, accepted the entries accepted by Write in acceptance order. -/
structure WorkerState where
  queue : List Entry
  batch : List Entry
  delivered : List Entry
  accepted : List Entry
  deriving DecidableEq, Repr

/-- The empty initial worker state. -/
def initWorker : WorkerState :=
  ⟨[], [], [], []⟩

/-- Mirrors the worker's flush closure: a no-op on an empty batch,
otherwise every batched entry is written to the inner sink in order and
the batch is reset. -/
def workerFlush (ws : WorkerState) : WorkerState :=
  if ws.batch = [] then ws
  else { ws with delivered := ws.delivered ++ ws.batch, batch := [] }

/-- Mirrors the queue-receive arm of the worker loop: the dequeued entry
joins the pending batch, and when a positive MaxEntries threshold is
reached the batch is flushed immediately. -/
def workerRecv (maxEntries : Int) (ws : WorkerState) (e : Entry) (rest : List Entry) :
    WorkerState :=
  let ws' : WorkerState := { ws with queue := rest, batch := ws.batch ++ [e] }
  if 0 < maxEntries ∧ maxEntries ≤ (ws'.batch.length : Int) then workerFlush ws'
  else ws'

/-- Events interleaved in a batch sink's lifetime, as the worker loop
sees them: an accepted Write enqueues an entry; the worker dequeues the
queue head; the interval ticker fires a timed flush. -/
inductive BatchEvent where
  | accept (e : Entry)
  | recv
  | tick
  deriving DecidableEq, Repr

/-- One step of the batch sink system: accept appends to the FIFO queue
(and to the ghost accepted history), recv runs the worker's receive arm
on the queue head, tick runs the worker's timed flush. -/
def workerStep (maxEntries : Int) (ws : WorkerState) : BatchEvent → WorkerState
  | BatchEvent.accept e => { ws with queue := ws.queue ++ [e], accepted := ws.accepted ++ [e] }
  | BatchEvent.recv =>
    match ws.queue with
    | [] => ws
    | e :: rest => workerRecv maxEntries ws e rest
  | BatchEvent.tick => workerFlush ws

/-- The stop-signal drain loop, with fuel: non-blocking receives empty
the queue through the same receive arm, then one final flush runs. -/
def workerDrainAux (maxEntries : Int) : Nat → WorkerState → WorkerState
  | 0, ws => workerFlush ws
  | n + 1, ws =>
    match ws.queue with
    | [] => workerFlush ws
    | e :: rest => workerDrainAux maxEntries n (workerRecv maxEntries ws e rest)

/-- Mirrors the drain at Close: the worker consumes every queued entry,
then flushes the pending batch and exits. -/
def workerDrain (maxEntries : Int) (ws : WorkerState) : WorkerState :=
  workerDrainAux maxEntries ws.queue.length ws

/-! ### Helper lemmas -/

theorem shouldRotate_eq_true_iff (s : RotState) (now : Int) (n : Nat) :
    shouldRotate s now n = true ↔
      (s.opt.Policy.MaxSizeMB > 0 ∧
        s.size + (n : Int) > s.opt.Policy.MaxSizeMB * 1024 * 1024) ∨
      (s.opt.Policy.MaxAgeDays > 0 ∧
        now - s.created ≥ s.opt.Policy.MaxAgeDays * 24 * 3600 * 1000000000) := by
  unfold shouldRotate
  dsimp only
  split_ifs with h1 h2
  · simpa using Or.inl h1
  · simpa using Or.inr h2
  · simp only [Bool.false_eq_true, false_iff]
    exact fun h => h.elim h1 h2

theorem shouldRotate_disabled (s : RotState) (now : Int) (n : Nat)
    (hs : s.opt.Policy.MaxSizeMB = 0) (ha : s.opt.Policy.MaxAgeDays = 0) :
    shouldRotate s now n = false := by
  unfold shouldRotate
  simp [hs, ha]

theorem openCurrent_opt (env : Env) (s : RotState) (w : World) :
    (openCurrent env s w).s.opt = s.opt := by
  unfold openCurrent
  cases env.mkdirErr <;> cases env.openErr <;> cases env.statErr <;> simp

theorem appendEntry_size (env : Env) (s : RotState) (w : World) (entry : Entry)
    (rotated : Bool) (pre : List SysOp) :
    (appendEntry env s w entry rotated pre).s.size = s.size + (env.writeN : Int) := by
  unfold appendEntry
  cases w.active <;> simp

theorem appendEntry_preSize (env : Env) (s : RotState) (w : World) (entry : Entry)
    (rotated : Bool) (pre : List SysOp) :
    (appendEntry env s w entry rotated pre).preSize = s.size := by
  unfold appendEntry
  cases w.active <;> simp

theorem appendEntry_err (env : Env) (s : RotState) (w : World) (entry : Entry)
    (rotated : Bool) (pre : List SysOp) :
    (appendEntry env s w entry rotated pre).err = env.writeErr := by
  unfold appendEntry
  cases w.active <;> simp

theorem appendEntry_wrote (env : Env) (s : RotState) (w : World) (entry : Entry)
    (rotated : Bool) (pre : List SysOp) :
    (appendEntry env s w entry rotated pre).wrote = true := by
  unfold appendEntry
  cases w.active <;> simp

theorem appendEntry_rotated (env : Env) (s : RotState) (w : World) (entry : Entry)
    (rotated : Bool) (pre : List SysOp) :
    (appendEntry env s w entry rotated pre).rotated = rotated := by
  unfold appendEntry
  cases w.active <;> simp

/-! ### Concrete sample values used by witnesses and counterexamples -/

/-- An environment where every system call succeeds: live context, time
1000ns, three bytes reported written. -/
def sampleEnv : Env :=
  ⟨none, 1000, none, none, none, true, none, true, 3, none, none, none⟩

/-- A size-only rotation policy of one megabyte. -/
def samplePolicy : Rotation := ⟨1, 0, 0, false⟩

/-- Sample options for an active file app.log with the default mode. -/
def sampleOpt : FileRotationOptions := ⟨"app.log", samplePolicy, "", 0o640⟩

/-- An open sink with five tracked bytes, created at time zero. -/
def sampleState : RotState := ⟨"app.log", sampleOpt, true, 5, 0, false⟩

/-- A world whose active file holds five bytes written at time zero. -/
def sampleWorld : World := ⟨some ⟨[9, 9, 9, 9, 9], 0, false⟩, []⟩

/-- A closed sink otherwise identical to sampleState. -/
def closedState : RotState := ⟨"app.log", sampleOpt, false, 5, 0, true⟩

/-- An environment one full day after time zero, everything succeeding. -/
def ageEnv : Env :=
  ⟨none, 86400000000000, none, none, none, true, none, true, 3, none, none, none⟩

/-- An age-only rotation policy of one day. -/
def ageState : RotState := ⟨"app.log", ⟨"app.log", ⟨0, 1, 0, false⟩, "", 0o640⟩, true, 0, 0, false⟩

/-- An environment whose file write reports two bytes written and an
I/O error: a partial write. -/
def partialWriteEnv : Env :=
  ⟨none, 1000, none, none, none, true, none, true, 2, some (GoErr.ioErr 9), none, none⟩

/-- An environment whose context is already cancelled with code 1. -/
def cancelledEnv : Env :=
  ⟨some 1, 1000, none, none, none, true, none, true, 3, none, none, none⟩

/-- An environment where the rename of the active file fails. -/
def renameFailEnv : Env :=
  ⟨none, 1000, none, none, none, true, some (GoErr.ioErr 5), true, 3, none, none, none⟩

/-- An environment where MkdirAll fails, so that reopening the active
file after a successful rename fails. -/
def mkdirFailEnv : Env :=
  ⟨none, 1000, some (GoErr.ioErr 7), none, none, true, none, true, 3, none, none, none⟩

/-- A sink state whose tracked size already fills the one-megabyte
limit, so that any write triggers rotation. -/
def overSizeState : RotState := ⟨"app.log", sampleOpt, true, 1048576, 0, false⟩

/-! ### Claim theorems -/

/-- C1: for a rotating file sink (with the steady-state file handle
open, a live context and an open sink), a Write of entry e triggers a
rotation if and only if the size limit is enabled and currentSize plus
the entry length strictly exceeds the configured maximum size, or the
age limit is enabled and now minus the recorded creation time is at
least the configured maximum age; and when both dimensions are zero,
no Write ever rotates. -/
theorem rotation_trigger_spec :
    (∀ (env : Env) (s : RotState) (w : World) (entry : Entry),
      env.ctxCancel = none → s.closed = false → s.file = true →
      ((rotatingWrite env s w entry).rotated = true ↔
        (s.opt.Policy.MaxSizeMB > 0 ∧
          s.size + (entry.length : Int) > s.opt.Policy.MaxSizeMB * 1024 * 1024) ∨
        (s.opt.Policy.MaxAgeDays > 0 ∧
          env.now - s.created ≥ s.opt.Policy.MaxAgeDays * 24 * 3600 * 1000000000))) ∧
    (∀ (env : Env) (s : RotState) (w : World) (entry : Entry),
      s.opt.Policy.MaxSizeMB = 0 → s.opt.Policy.MaxAgeDays = 0 →
      (rotatingWrite env s w entry).rotated = false) := by
  constructor
  · intro env s w entry hctx hcl hf
    rw [← shouldRotate_eq_true_iff s env.now entry.length]
    unfold rotatingWrite
    rw [hctx]
    by_cases hr : shouldRotate s env.now entry.length
    · cases hre : (rotateLocked env s w).err <;>
        simp [hcl, hf, hr, hre, appendEntry_rotated]
    · simp [hcl, hf, hr, appendEntry_rotated]
  · intro env s w entry hs ha
    unfold rotatingWrite
    cases hctx : env.ctxCancel
    · by_cases hcl : s.closed
      · simp [hcl]
      · by_cases hf : s.file
        · simp [hcl, hf, shouldRotate_disabled s env.now entry.length hs ha,
            appendEntry_rotated]
        · cases hop : (openCurrent env s w).err
          · have hopt := openCurrent_opt env s w
            have hdis : shouldRotate (openCurrent env s w).s env.now entry.length = false :=
              shouldRotate_disabled _ _ _ (by rw [hopt]; exact hs) (by rw [hopt]; exact ha)
            simp [hcl, hf, hop, hdis, appendEntry_rotated]
          · simp [hcl, hf, hop]
    · simp

/-- C3: after Close has completed (equivalently, once the closed flag is
set, which Close always establishes), every Write and Flush on either
sink layer — with a live context — returns the layer's closed sentinel
error, leaves all state untouched, and performs no system call or inner
sink call. -/
theorem closed_sink_rejects_operations :
    (∀ (env : Env) (s : RotState) (w : World) (entry : Entry),
      env.ctxCancel = none → s.closed = true →
      rotatingWrite env s w entry = ⟨some GoErr.rotationClosed, s, w, false, false, 0, []⟩) ∧
    (∀ (env : Env) (s : RotState) (w : World),
      env.ctxCancel = none → s.closed = true →
      rotatingFlush env s w = ⟨some GoErr.rotationClosed, s, w, []⟩) ∧
    (∀ (env : Env) (s : RotState) (w : World), (rotatingClose env s w).s.closed = true) ∧
    (∀ (mode : Nat) (ev : BlockEvent) (st : BatchState) (entry : Entry),
      st.closed = true →
      batchWrite mode ev st entry = ⟨some GoErr.batchClosed, st, false⟩) ∧
    (∀ (st : BatchState) (innerErr : Option GoErr),
      st.closed = true → batchFlush st innerErr = (some GoErr.batchClosed, false)) ∧
    (∀ st : BatchState, (batchMarkClosed st).1.closed = true) := by
  refine ⟨?_, ?_, ?_, ?_, ?_, ?_⟩
  · intro env s w entry hctx hcl
    unfold rotatingWrite
    rw [hctx]
    simp [hcl]
  · intro env s w hctx hcl
    unfold rotatingFlush
    rw [hctx]
    simp [hcl]
  · intro env s w
    unfold rotatingClose
    by_cases h : s.closed
    · simp [h]
    · by_cases hf : s.file <;> simp [h, hf]
  · intro mode ev st entry hcl
    unfold batchWrite
    simp [hcl]
  · intro st innerErr hcl
    unfold batchFlush
    simp [hcl]
  · intro st
    unfold batchMarkClosed
    by_cases h : st.closed <;> simp [h]

/-- C4: on a batch sink whose queue is full, Write under Drop or Shed
returns the queue-full error with the queue untouched and without
entering the blocking select, independently of any later event; under
Block it enters the select and either enqueues the entry after the
worker frees space (returning success) or returns the context's
cancellation error without enqueuing. -/
theorem batch_backpressure_full_queue (st : BatchState) (entry : Entry)
    (hcl : st.closed = false) (hfull : ¬ st.queue.length < st.cap) :
    (∀ ev : BlockEvent,
      batchWrite BackpressureDrop ev st entry = ⟨some GoErr.queueFull, st, false⟩) ∧
    (∀ ev : BlockEvent,
      batchWrite BackpressureShed ev st entry = ⟨some GoErr.queueFull, st, false⟩) ∧
    (∀ k : Nat, batchWrite BackpressureBlock (BlockEvent.space k) st entry =
      ⟨none, { st with queue := st.queue.drop (k + 1) ++ [entry] }, true⟩) ∧
    (∀ c : Nat, batchWrite BackpressureBlock (BlockEvent.cancel c) st entry =
      ⟨some (GoErr.ctxErr c), st, true⟩) := by
  refine ⟨?_, ?_, ?_, ?_⟩ <;> intro x <;>
    simp [batchWrite, hcl, hfull, BackpressureDrop, BackpressureShed, BackpressureBlock]

/-- C8: whenever a Write on the rotating file sink reaches the
file-append step, the in-memory size counter grows by exactly the byte
count the file write reports, and the write's own error — if any — is
what the call returns, so the size increase happens even on a failed or
partial write. -/
theorem write_size_accounting (env : Env) (s : RotState) (w : World) (entry : Entry)
    (hw : (rotatingWrite env s w entry).wrote = true) :
    (rotatingWrite env s w entry).s.size
        = (rotatingWrite env s w entry).preSize + (env.writeN : Int) ∧
    (rotatingWrite env s w entry).err = env.writeErr := by
  unfold rotatingWrite at hw ⊢
  cases hctx : env.ctxCancel
  · by_cases hcl : s.closed
    · simp [hctx, hcl] at hw
    · by_cases hf : s.file
      · by_cases hr : shouldRotate s env.now entry.length
        · cases hre : (rotateLocked env s w).err
          · simp [hctx, hcl, hf, hr, hre, appendEntry_size, appendEntry_preSize,
              appendEntry_err]
          · simp [hctx, hcl, hf, hr, hre] at hw
        · simp [hctx, hcl, hf, hr, appendEntry_size, appendEntry_preSize, appendEntry_err]
      · cases hop : (openCurrent env s w).err
        · by_cases hr : shouldRotate (openCurrent env s w).s env.now entry.length
          · cases hre : (rotateLocked env (openCurrent env s w).s (openCurrent env s w).w).err
            · simp [hctx, hcl, hf, hop, hr, hre, appendEntry_size, appendEntry_preSize,
                appendEntry_err]
            · simp [hctx, hcl, hf, hop, hr, hre] at hw
          · simp [hctx, hcl, hf, hop, hr, appendEntry_size, appendEntry_preSize,
              appendEntry_err]
        · simp [hctx, hcl, hf, hop] at hw
  · simp [hctx] at hw

/-- C9: when the caller's context is already cancelled, Write and Flush
on the rotating file sink return the context's own cancellation error
before any state or file is touched, even on a closed sink — the result
is the cancellation error, never the closed sentinel. -/
theorem cancelled_context_short_circuit (env : Env) (s : RotState) (w : World)
    (entry : Entry) (c : Nat) (hctx : env.ctxCancel = some c) :
    rotatingWrite env s w entry = ⟨some (GoErr.ctxErr c), s, w, false, false, 0, []⟩ ∧
    rotatingFlush env s w = ⟨some (GoErr.ctxErr c), s, w, []⟩ ∧
    GoErr.ctxErr c ≠ GoErr.rotationClosed := by
  refine ⟨?_, ?_, by simp⟩
  · unfold rotatingWrite
    rw [hctx]
  · unfold rotatingFlush
    rw [hctx]

/-- Witness for C1: with an age-only policy of one day and a write one
full day after the recorded creation time, the Write rotates. -/
theorem rotation_trigger_spec_witness :
    (rotatingWrite ageEnv ageState sampleWorld [1, 2, 3]).rotated = true :=
  (rotation_trigger_spec.1 ageEnv ageState sampleWorld [1, 2, 3] rfl rfl rfl).mpr
    (by decide)

/-- Witness for C3: a closed rotating sink rejects a Write with the
rotation closed sentinel and no system call; a closed batch sink
rejects a Write with the batch closed sentinel and no enqueue. -/
theorem closed_sink_rejects_operations_witness :
    rotatingWrite sampleEnv closedState sampleWorld [1] =
      ⟨some GoErr.rotationClosed, closedState, sampleWorld, false, false, 0, []⟩ ∧
    batchWrite BackpressureBlock (BlockEvent.space 0) ⟨[], 4, true⟩ [1] =
      ⟨some GoErr.batchClosed, ⟨[], 4, true⟩, false⟩ :=
  ⟨closed_sink_rejects_operations.1 sampleEnv closedState sampleWorld [1] rfl rfl,
   closed_sink_rejects_operations.2.2.2.1 BackpressureBlock (BlockEvent.space 0)
     ⟨[], 4, true⟩ [1] rfl⟩

/-- Witness for C4: a batch sink with capacity one holding one entry
rejects a further Write under Drop mode with the queue-full error. -/
theorem batch_backpressure_full_queue_witness :
    batchWrite BackpressureDrop (BlockEvent.space 0) ⟨[[7]], 1, false⟩ [8] =
      ⟨some GoErr.queueFull, ⟨[[7]], 1, false⟩, false⟩ :=
  (batch_backpressure_full_queue ⟨[[7]], 1, false⟩ [8] rfl (by decide)).1
    (BlockEvent.space 0)

/-- Witness for C8: a partial write of two bytes that also errors still
adds exactly two bytes to the tracked size, and the error is returned. -/
theorem write_size_accounting_witness :
    (rotatingWrite partialWriteEnv sampleState sampleWorld [1, 2, 3]).s.size
        = (rotatingWrite partialWriteEnv sampleState sampleWorld [1, 2, 3]).preSize
          + (partialWriteEnv.writeN : Int) ∧
    (rotatingWrite partialWriteEnv sampleState sampleWorld [1, 2, 3]).err
        = partialWriteEnv.writeErr :=
  write_size_accounting partialWriteEnv sampleState sampleWorld [1, 2, 3] (by decide)

/-- Witness for C9: on a closed sink with an already-cancelled context,
Write and Flush return the cancellation error, not the closed one. -/
theorem cancelled_context_short_circuit_witness :
    rotatingWrite cancelledEnv closedState sampleWorld [1] =
      ⟨some (GoErr.ctxErr 1), closedState, sampleWorld, false, false, 0, []⟩ ∧
    rotatingFlush cancelledEnv closedState sampleWorld =
      ⟨some (GoErr.ctxErr 1), closedState, sampleWorld, []⟩ ∧
    GoErr.ctxErr 1 ≠ GoErr.rotationClosed :=
  cancelled_context_short_circuit cancelledEnv closedState sampleWorld [1] 1 rfl

theorem openCurrent_err_state (env : Env) (s : RotState) (w : World) (e : GoErr)
    (h : (openCurrent env s w).err = some e) : (openCurrent env s w).s = s := by
  unfold openCurrent at h ⊢
  rcases h1 : env.mkdirErr with _ | e1
  · rcases h2 : env.openErr with _ | e2
    · rcases h3 : env.statErr with _ | e3
      · simp [h1, h2, h3] at h
      · simp [h1, h2, h3]
    · simp [h1, h2]
  · simp [h1]

theorem rotateLocked_err_state (env : Env) (s : RotState) (w : World) (e : GoErr)
    (h : (rotateLocked env s w).err = some e) :
    (rotateLocked env s w).s.size = s.size ∧
    (rotateLocked env s w).s.created = s.created := by
  unfold rotateLocked at h ⊢
  by_cases hex : w.active.isSome ∧ env.rotStatOk
  · rcases hw : w.active with _ | f
    · rw [hw] at hex
      simp at hex
    · rw [hw] at hex
      simp only [hex, if_true, hw] at h ⊢
      rcases hre : env.renameErr with _ | e1
      · simp only [hre] at h ⊢
        have hs := openCurrent_err_state env { s with file := false } _ e h
        simp [hs]
      · simp [hre]
  · simp only [hex, if_false] at h ⊢
    have hs := openCurrent_err_state env { s with file := false } w e h
    simp [hs]

/-- C2 (amended): when a Write requires rotation and the rotation fails,
the Write returns the rotation's error, the entry is not written, and
the in-memory size and creation state are unchanged; when the failing
step is the rename of the active file, the on-disk world (active file
and backups) is also exactly as it was before the attempt. -/
theorem rotation_failure_preserves_state (env : Env) (s : RotState) (w : World)
    (entry : Entry) (e : GoErr)
    (hctx : env.ctxCancel = none) (hcl : s.closed = false) (hf : s.file = true)
    (hrot : shouldRotate s env.now entry.length = true)
    (hfail : (rotateLocked env s w).err = some e) :
    ((rotatingWrite env s w entry).err = some e ∧
     (rotatingWrite env s w entry).wrote = false ∧
     (rotatingWrite env s w entry).s.size = s.size ∧
     (rotatingWrite env s w entry).s.created = s.created) ∧
    (∀ f : DiskFile, w.active = some f → env.rotStatOk = true →
      env.renameErr = some e → (rotatingWrite env s w entry).w = w) := by
  have hwhole : rotatingWrite env s w entry =
      ⟨some e, (rotateLocked env s w).s, (rotateLocked env s w).w, true, false, 0,
        [] ++ (rotateLocked env s w).trace⟩ := by
    unfold rotatingWrite
    rw [hctx]
    simp [hcl, hf, hrot, hfail]
  constructor
  · rw [hwhole]
    exact ⟨rfl, rfl, (rotateLocked_err_state env s w e hfail).1,
      (rotateLocked_err_state env s w e hfail).2⟩
  · intro f hwa hstat hren
    rw [hwhole]
    show (rotateLocked env s w).w = w
    unfold rotateLocked
    simp [hwa, hstat, hren]

/-- C7 (amended): a zero configured file mode defaults to 0o640 — owner
read and write, group read only, no execute bit anywhere, nothing for
others; a nonzero configured mode is kept as is; and the active file is
opened in append mode: an existing file's content is never truncated by
openCurrent. -/
theorem default_file_mode_spec :
    newRotatingFileSinkFileMode 0 = 0o640 ∧
    newRotatingFileSinkFileMode 0 &&& 0o400 ≠ 0 ∧
    newRotatingFileSinkFileMode 0 &&& 0o200 ≠ 0 ∧
    newRotatingFileSinkFileMode 0 &&& 0o040 ≠ 0 ∧
    newRotatingFileSinkFileMode 0 &&& 0o020 = 0 ∧
    newRotatingFileSinkFileMode 0 &&& 0o111 = 0 ∧
    newRotatingFileSinkFileMode 0 &&& 0o007 = 0 ∧
    (∀ m : Nat, m ≠ 0 → newRotatingFileSinkFileMode m = m) ∧
    (∀ (env : Env) (s : RotState) (w : World) (f : DiskFile),
      w.active = some f → (openCurrent env s w).w.active = some f) := by
  refine ⟨by decide, by decide, by decide, by decide, by decide, by decide, by decide,
    ?_, ?_⟩
  · intro m hm
    unfold newRotatingFileSinkFileMode
    simp [hm]
  · intro env s w f hwa
    unfold openCurrent
    cases env.mkdirErr <;> cases env.openErr <;> cases env.statErr <;> simp [hwa]

/-- Counterexample for C2: with a one-megabyte policy, a full tracked
size and an environment where the rename succeeds but re-creating the
active file fails (MkdirAll error), the Write requires rotation, the
rotation fails and the error is returned without writing the entry —
but the on-disk active file is not as it was before the attempt: it has
been renamed away, so the sink's previous on-disk state is not left
fully intact on every rotation failure. -/
theorem rotation_failure_counterexample :
    shouldRotate overSizeState mkdirFailEnv.now (3 : Nat) = true ∧
    (rotatingWrite mkdirFailEnv overSizeState sampleWorld [1, 2, 3]).err
      = some (GoErr.ioErr 7) ∧
    (rotatingWrite mkdirFailEnv overSizeState sampleWorld [1, 2, 3]).wrote = false ∧
    (rotatingWrite mkdirFailEnv overSizeState sampleWorld [1, 2, 3]).w.active
      ≠ sampleWorld.active := by
  refine ⟨by decide, by decide, by decide, by decide⟩

/-- Witness for C2 (amended): a failing rename with an oversized file
makes the Write return the rename error; the entry is unwritten, the
tracked size and creation time are untouched, and the world — active
file and backups — is exactly as before. -/
theorem rotation_failure_preserves_state_witness :
    (rotatingWrite renameFailEnv overSizeState sampleWorld [1, 2, 3]).err
      = some (GoErr.ioErr 5) ∧
    (rotatingWrite renameFailEnv overSizeState sampleWorld [1, 2, 3]).wrote = false ∧
    (rotatingWrite renameFailEnv overSizeState sampleWorld [1, 2, 3]).s.size
      = overSizeState.size ∧
    (rotatingWrite renameFailEnv overSizeState sampleWorld [1, 2, 3]).s.created
      = overSizeState.created ∧
    (rotatingWrite renameFailEnv overSizeState sampleWorld [1, 2, 3]).w = sampleWorld := by
  have h := rotation_failure_preserves_state renameFailEnv overSizeState sampleWorld
    [1, 2, 3] (GoErr.ioErr 5) rfl rfl rfl (by decide) (by decide)
  exact ⟨h.1.1, h.1.2.1, h.1.2.2.1, h.1.2.2.2,
    h.2 ⟨[9, 9, 9, 9, 9], 0, false⟩ rfl rfl rfl⟩

/-- Counterexample for C7: the default file mode applied when the
configured mode is zero is 0o640, whose group-write bit is clear — the
default does not grant write permission to the group. -/
theorem default_file_mode_counterexample :
    newRotatingFileSinkFileMode 0 = 0o640 ∧
    newRotatingFileSinkFileMode 0 &&& 0o020 = 0 := by
  decide

/-- Witness for C7 (amended): a nonzero mode 0o600 is kept, and opening
over an existing active file keeps its five bytes of content. -/
theorem default_file_mode_spec_witness :
    newRotatingFileSinkFileMode 0o600 = 0o600 ∧
    (openCurrent sampleEnv sampleState sampleWorld).w.active
      = some ⟨[9, 9, 9, 9, 9], 0, false⟩ :=
  ⟨default_file_mode_spec.2.2.2.2.2.2.2.1 0o600 (by decide),
   default_file_mode_spec.2.2.2.2.2.2.2.2 sampleEnv sampleState sampleWorld
     ⟨[9, 9, 9, 9, 9], 0, false⟩ rfl⟩

/-- The FIFO invariant of the batch sink system: what was delivered to
the inner sink, followed by the worker's pending batch, followed by the
still-queued entries, is exactly the accepted history in order. -/
def workerInv (ws : WorkerState) : Prop :=
  ws.delivered ++ ws.batch ++ ws.queue = ws.accepted

theorem workerFlush_queue (ws : WorkerState) : (workerFlush ws).queue = ws.queue := by
  unfold workerFlush
  by_cases h : ws.batch = [] <;> simp [h]

theorem workerFlush_accepted (ws : WorkerState) :
    (workerFlush ws).accepted = ws.accepted := by
  unfold workerFlush
  by_cases h : ws.batch = [] <;> simp [h]

theorem workerFlush_batch (ws : WorkerState) : (workerFlush ws).batch = [] := by
  unfold workerFlush
  by_cases h : ws.batch = [] <;> simp [h]

theorem workerFlush_inv (ws : WorkerState) (h : workerInv ws) :
    workerInv (workerFlush ws) := by
  unfold workerInv at h ⊢
  unfold workerFlush
  by_cases hb : ws.batch = []
  · simpa [hb] using h
  · rw [if_neg hb]
    simpa [List.append_assoc] using h

theorem workerRecv_queue (maxE : Int) (ws : WorkerState) (e : Entry) (rest : List Entry) :
    (workerRecv maxE ws e rest).queue = rest := by
  unfold workerRecv
  dsimp only
  split
  · rw [workerFlush_queue]
  · rfl

theorem workerRecv_accepted (maxE : Int) (ws : WorkerState) (e : Entry)
    (rest : List Entry) : (workerRecv maxE ws e rest).accepted = ws.accepted := by
  unfold workerRecv
  dsimp only
  split
  · rw [workerFlush_accepted]
  · rfl

theorem workerRecv_inv (maxE : Int) (ws : WorkerState) (e : Entry) (rest : List Entry)
    (hq : ws.queue = e :: rest) (h : workerInv ws) :
    workerInv (workerRecv maxE ws e rest) := by
  have hmid : workerInv { ws with queue := rest, batch := ws.batch ++ [e] } := by
    unfold workerInv at h ⊢
    rw [hq] at h
    dsimp only
    simp only [List.append_assoc, List.singleton_append] at h ⊢
    exact h
  unfold workerRecv
  dsimp only
  split
  · exact workerFlush_inv _ hmid
  · exact hmid

theorem workerStep_inv (maxE : Int) (ws : WorkerState) (ev : BatchEvent)
    (h : workerInv ws) : workerInv (workerStep maxE ws ev) := by
  cases ev with
  | accept e =>
    unfold workerInv at h ⊢
    unfold workerStep
    dsimp only
    rw [← h]
    simp [List.append_assoc]
  | recv =>
    unfold workerStep
    rcases hq : ws.queue with _ | ⟨e, rest⟩
    · exact h
    · exact workerRecv_inv maxE ws e rest hq h
  | tick =>
    exact workerFlush_inv ws h

theorem foldl_workerStep_inv (maxE : Int) (evs : List BatchEvent) :
    ∀ ws : WorkerState, workerInv ws →
      workerInv (evs.foldl (workerStep maxE) ws) := by
  induction evs with
  | nil => exact fun ws h => h
  | cons ev evs ih =>
    intro ws h
    exact ih (workerStep maxE ws ev) (workerStep_inv maxE ws ev h)

theorem workerDrainAux_spec (maxE : Int) :
    ∀ (n : Nat) (ws : WorkerState), ws.queue.length = n →
      (workerDrainAux maxE n ws).queue = [] ∧
      (workerDrainAux maxE n ws).batch = [] ∧
      (workerDrainAux maxE n ws).accepted = ws.accepted ∧
      (workerInv ws → workerInv (workerDrainAux maxE n ws)) := by
  intro n
  induction n with
  | zero =>
    intro ws hlen
    have hq : ws.queue = [] := List.length_eq_zero.mp hlen
    unfold workerDrainAux
    exact ⟨by rw [workerFlush_queue]; exact hq, workerFlush_batch ws,
      workerFlush_accepted ws, workerFlush_inv ws⟩
  | succ n ih =>
    intro ws hlen
    rcases hq : ws.queue with _ | ⟨e, rest⟩
    · rw [hq] at hlen
      simp at hlen
    · have hrest : (workerRecv maxE ws e rest).queue.length = n := by
        rw [workerRecv_queue]
        have := hlen
        rw [hq] at this
        simpa using this
      have hstep := ih (workerRecv maxE ws e rest) hrest
      unfold workerDrainAux
      simp only [hq]
      exact ⟨hstep.1, hstep.2.1,
        hstep.2.2.1.trans (workerRecv_accepted maxE ws e rest),
        fun hinv => hstep.2.2.2 (workerRecv_inv maxE ws e rest hq hinv)⟩

theorem workerDrain_spec (maxE : Int) (ws : WorkerState) (h : workerInv ws) :
    (workerDrain maxE ws).delivered = (workerDrain maxE ws).accepted ∧
    (workerDrain maxE ws).accepted = ws.accepted := by
  have hs := workerDrainAux_spec maxE ws.queue.length ws rfl
  have hinv := hs.2.2.2 h
  unfold workerInv at hinv
  rw [hs.1, hs.2.1] at hinv
  simp at hinv
  exact ⟨hinv, hs.2.2.1⟩

/-- C5: over any interleaving of accepted Writes, dequeues by the
worker (with the count-triggered flush inside) and timer-triggered
flushes, the entries delivered to the inner sink always form a prefix
of the accepted entries in acceptance order, and the final drain at
Close delivers exactly the accepted sequence, in order. -/
theorem batch_delivery_order (maxEntries : Int) (evs : List BatchEvent) :
    (∃ t, (evs.foldl (workerStep maxEntries) initWorker).delivered ++ t
        = (evs.foldl (workerStep maxEntries) initWorker).accepted) ∧
    (workerDrain maxEntries (evs.foldl (workerStep maxEntries) initWorker)).delivered
        = (workerDrain maxEntries (evs.foldl (workerStep maxEntries) initWorker)).accepted ∧
    (workerDrain maxEntries (evs.foldl (workerStep maxEntries) initWorker)).accepted
        = (evs.foldl (workerStep maxEntries) initWorker).accepted := by
  have hinv : workerInv (evs.foldl (workerStep maxEntries) initWorker) :=
    foldl_workerStep_inv maxEntries evs initWorker (by
      unfold workerInv initWorker
      simp)
  refine ⟨?_, workerDrain_spec maxEntries _ hinv⟩
  exact ⟨(evs.foldl (workerStep maxEntries) initWorker).batch ++
    (evs.foldl (workerStep maxEntries) initWorker).queue, by
      unfold workerInv at hinv
      simpa [List.append_assoc] using hinv⟩

theorem filter_not_mem_append (t u : List DirEntry) (hnd : (t ++ u).Nodup) :
    (t ++ u).filter (fun e => decide (e ∉ t)) = u := by
  rw [List.filter_append]
  have hdisj := (List.nodup_append.mp hnd).2.2
  have hnil : t.filter (fun e => decide (e ∉ t)) = [] := by
    rw [List.filter_eq_nil_iff]
    intro a ha
    simp [ha]
  have hself : u.filter (fun e => decide (e ∉ t)) = u := by
    rw [List.filter_eq_self]
    intro a ha
    simp only [decide_eq_true_eq]
    exact fun hat => hdisj hat ha
  rw [hnil, hself, List.nil_append]

theorem sortedPruneCore (bs : List DirEntry) (dn : Nat) (hdn : dn ≤ bs.length) :
    ((bs.insertionSort olderLE).take dn).length = dn ∧
    ((bs.insertionSort olderLE).drop dn).length = bs.length - dn ∧
    (((bs.insertionSort olderLE).take dn) ++ ((bs.insertionSort olderLE).drop dn)).Perm bs ∧
    (∀ k ∈ (bs.insertionSort olderLE).drop dn,
      ∀ d ∈ (bs.insertionSort olderLE).take dn, olderLE d k) ∧
    (bs.Nodup →
      (bs.filter (fun e => decide (e ∉ (bs.insertionSort olderLE).take dn))).Perm
        ((bs.insertionSort olderLE).drop dn)) := by
  have hperm : (bs.insertionSort olderLE).Perm bs := List.perm_insertionSort olderLE bs
  have hlen : (bs.insertionSort olderLE).length = bs.length := hperm.length_eq
  have hsplit : (bs.insertionSort olderLE).take dn ++ (bs.insertionSort olderLE).drop dn
      = bs.insertionSort olderLE := List.take_append_drop dn _
  have hsorted : List.Sorted olderLE (bs.insertionSort olderLE) :=
    List.sorted_insertionSort olderLE bs
  refine ⟨?_, ?_, ?_, ?_, ?_⟩
  · rw [List.length_take]
    omega
  · rw [List.length_drop]
    omega
  · rw [hsplit]
    exact hperm
  · have hpw := List.pairwise_append.mp (show List.Pairwise olderLE
        ((bs.insertionSort olderLE).take dn ++ (bs.insertionSort olderLE).drop dn) by
      rw [hsplit]; exact hsorted)
    intro k hk d hd
    exact hpw.2.2 d hd k hk
  · intro hnd
    have hnds : (bs.insertionSort olderLE).Nodup := hperm.nodup_iff.mpr hnd
    have h1 : (bs.filter (fun e => decide (e ∉ (bs.insertionSort olderLE).take dn))).Perm
        ((bs.insertionSort olderLE).filter
          (fun e => decide (e ∉ (bs.insertionSort olderLE).take dn))) :=
      (List.Perm.filter _ hperm).symm
    have h2 : ((bs.insertionSort olderLE).take dn ++ (bs.insertionSort olderLE).drop dn).filter
        (fun e => decide (e ∉ (bs.insertionSort olderLE).take dn))
        = (bs.insertionSort olderLE).drop dn :=
      filter_not_mem_append _ _ (by rw [hsplit]; exact hnds)
    have h3 : (bs.insertionSort olderLE).filter
        (fun e => decide (e ∉ (bs.insertionSort olderLE).take dn))
        = (bs.insertionSort olderLE).drop dn := by
      rw [← h2, hsplit]
    exact h3 ▸ h1

/-- C6: with a positive backup limit K, a directory whose prefix-matching
backups have pairwise distinct modification times, and strictly more
than K such backups, one pruning run deletes exactly N − K of them and
keeps exactly K; the deleted and kept backups together are a permutation
of all backups, and every kept backup's modification time is at least
every deleted backup's. -/
theorem prune_retention (base : String) (K : Int) (entries : List DirEntry)
    (hK : 0 < K)
    (hN : K < ((collectBackups base entries).length : Int))
    (hdis : (collectBackups base entries).Pairwise (fun a b => a.mtime ≠ b.mtime)) :
    (((pruneBackups base K entries).deleted.length : Int)
        = ((collectBackups base entries).length : Int) - K) ∧
    ((((pruneBackups base K entries).remaining.filter
        (fun e => isBackupName base e)).length : Int) = K) ∧
    (((pruneBackups base K entries).deleted ++
        (pruneBackups base K entries).remaining.filter
          (fun e => isBackupName base e)).Perm (collectBackups base entries)) ∧
    (∀ k ∈ (pruneBackups base K entries).remaining.filter (fun e => isBackupName base e),
      ∀ d ∈ (pruneBackups base K entries).deleted, d.mtime ≤ k.mtime) := by
  classical
  have hnd : (collectBackups base entries).Nodup :=
    hdis.imp (fun hne heq => hne (by rw [heq]))
  have hcore := sortedPruneCore (collectBackups base entries)
    ((collectBackups base entries).length - K.toNat) (by omega)
  have hres : pruneBackups base K entries
      = PruneResult.mk
          (entries.filter (fun e => decide (e ∉ pruneToDelete base K entries)))
          (pruneToDelete base K entries) := by
    unfold pruneBackups
    rw [if_neg (show ¬ K ≤ 0 by omega),
      if_neg (show ¬ ((collectBackups base entries).length : Int) ≤ K by omega)]
  have hkept : (entries.filter
        (fun e => decide (e ∉ pruneToDelete base K entries))).filter
          (fun e => isBackupName base e)
      = (collectBackups base entries).filter
          (fun e => decide (e ∉ pruneToDelete base K entries)) := by
    unfold collectBackups
    rw [List.filter_filter, List.filter_filter]
    exact List.filter_congr (fun a _ => Bool.and_comm _ _)
  have hkperm : ((entries.filter
        (fun e => decide (e ∉ pruneToDelete base K entries))).filter
          (fun e => isBackupName base e)).Perm
      (pruneToKeep base K entries) := by
    rw [hkept]
    exact hcore.2.2.2.2 hnd
  rw [hres]
  dsimp only
  refine ⟨?_, ?_, ?_, ?_⟩
  · have h1 : (pruneToDelete base K entries).length
        = (collectBackups base entries).length - K.toNat := hcore.1
    omega
  · have h2 := hkperm.length_eq
    have h3 : (pruneToKeep base K entries).length
        = (collectBackups base entries).length
          - ((collectBackups base entries).length - K.toNat) := hcore.2.1
    omega
  · exact (List.Perm.append_left (pruneToDelete base K entries) hkperm).trans hcore.2.2.1
  · intro k hk d hd
    have hkmem : k ∈ pruneToKeep base K entries := hkperm.mem_iff.mp hk
    exact hcore.2.2.2.1 k hkmem d hd

/-- A sample directory: three backup-named files with distinct
modification times (one of them a gz variant, one not a timestamp at
all) and one unrelated file. -/
def dirSample : List DirEntry :=
  [⟨"app.log.notes", 1⟩, ⟨"app.log.20250101-000000.gz", 2⟩,
   ⟨"app.log.20250301-123456", 3⟩, ⟨"unrelated.txt", 0⟩]

/-- Witness for C6: pruning the sample directory with a backup limit of
one deletes two of the three backups and keeps exactly one, the newest. -/
theorem prune_retention_witness :
    (((pruneBackups "app.log" 1 dirSample).deleted.length : Int)
        = ((collectBackups "app.log" dirSample).length : Int) - 1) ∧
    ((((pruneBackups "app.log" 1 dirSample).remaining.filter
        (fun e => isBackupName "app.log" e)).length : Int) = 1) :=
  ⟨(prune_retention "app.log" 1 dirSample (by decide) (by decide) (by decide)).1,
   (prune_retention "app.log" 1 dirSample (by decide) (by decide) (by decide)).2.1⟩

/-- C10: pruning selects its deletion candidates only by the name test
"starts with the base name plus a dot", regardless of whether the rest
of the name is a rotation timestamp — every deleted entry passes that
test — and concretely, a directory holding a stray file app.log.notes,
a compressed backup and a real timestamped backup under base app.log
with limit 1 has both the stray file and the gz variant counted and
deleted, while the unrelated file is untouched. -/
theorem prune_selection_by_name :
    (∀ (base : String) (K : Int) (entries : List DirEntry),
      ∀ e ∈ (pruneBackups base K entries).deleted, isBackupName base e = true) ∧
    (isBackupName "app.log" ⟨"app.log.notes", 1⟩ = true ∧
     isBackupName "app.log" ⟨"app.log.20250101-000000.gz", 2⟩ = true ∧
     isBackupName "app.log" ⟨"unrelated.txt", 0⟩ = false) ∧
    pruneBackups "app.log" 1 dirSample
      = ⟨[⟨"app.log.20250301-123456", 3⟩, ⟨"unrelated.txt", 0⟩],
         [⟨"app.log.notes", 1⟩, ⟨"app.log.20250101-000000.gz", 2⟩]⟩ := by
  refine ⟨?_, by decide, by decide⟩
  intro base K entries e he
  unfold pruneBackups at he
  split at he
  · simp at he
  · split at he
    · simp at he
    · have h1 : e ∈ (collectBackups base entries).insertionSort olderLE :=
        List.mem_of_mem_take he
      rw [List.mem_insertionSort] at h1
      unfold collectBackups at h1
      exact (List.mem_filter.mp h1).2

/-- Witness for C10: the stray non-timestamp file app.log.notes is among
the entries deleted by pruning the sample directory. -/
theorem prune_selection_by_name_witness :
    isBackupName "app.log" ⟨"app.log.notes", 1⟩ = true :=
  prune_selection_by_name.1 "app.log" 1 dirSample ⟨"app.log.notes", 1⟩ (by decide)

end DxLog
